import Mathlib

set_option maxRecDepth 10000

/-!
Shallow embedding of the Iraqi-dialect Telegram bot
(`src/bot_handlers.py`, `src/multi_ai_client.py`).

Modelling conventions:
* Python `str` is modelled as `List Char` (`Str`); string literals are
  converted with `strOf`.
* Python dicts keyed by a user / chat id are modelled as functions
  `Int → _`; the known-users `set` as `Finset Int`.
* The conversation dict maps missing keys to `[]`: every use in the source
  combines the membership test with an emptiness test
  (`user_id not in self.conversations or not self.conversations[user_id]`),
  or inserts `[]` before appending, so this is observationally faithful.
* Network calls (provider requests, Telegram sends) are opaque inputs:
  their outcomes are passed as explicit parameters.
* `time.time()` timestamps are opaque `Nat` inputs.
-/

/-- Python `str`, modelled as a list of characters. -/
abbrev Str := List Char

/-- Conversion from a Lean string literal. -/
def strOf (s : String) : Str := s.data

/-- The backtick character (code point 96). -/
def backtick : Char := Char.ofNat 96

/-- Boolean test that the first list is a leading segment of the second. -/
def isPreL : Str → Str → Bool
  | [], _ => true
  | _ :: _, [] => false
  | a :: as, b :: bs => a == b && isPreL as bs

/-- Python substring containment `needle in hay`. -/
def containsSub (needle : Str) : Str → Bool
  | [] => needle.isEmpty
  | c :: rest => isPreL needle (c :: rest) || containsSub needle rest

/-- Python `s.lower()` (identity on Arabic letters, like `Char.toLower`). -/
def lowerStr (s : Str) : Str := s.map Char.toLower

/-- Python `any(n in hay for n in needles)`. -/
def containsAny (hay : Str) (needles : List Str) : Bool :=
  needles.any (fun n => containsSub n hay)

/-- Python `s.strip()`: drop whitespace from both ends. -/
def pyStrip (s : Str) : Str :=
  ((s.dropWhile Char.isWhitespace).reverse.dropWhile Char.isWhitespace).reverse

/-- Helper for `pySplit`: accumulate the current word (reversed) while
scanning. -/
def pySplitAux : Str → Str → List Str
  | cur, [] => if cur.isEmpty then [] else [cur.reverse]
  | cur, c :: rest =>
    if c.isWhitespace then
      if cur.isEmpty then pySplitAux [] rest else cur.reverse :: pySplitAux [] rest
    else pySplitAux (c :: cur) rest

/-- Python `s.split()` with no separator: maximal non-whitespace runs. -/
def pySplit (s : Str) : List Str := pySplitAux [] s

/-- Python `len(s.split())`. -/
def wordCount (s : Str) : Nat := (pySplit s).length

/-- Helper for `pySplitOn`: the `Nat` argument is the number of characters
of an already-recognised separator occurrence still to be skipped. -/
def splitOnSubAux (sep : Str) : Str → Nat → Str → List Str
  | [], _, acc => [acc.reverse]
  | _ :: rest, k + 1, acc => splitOnSubAux sep rest k acc
  | c :: rest, 0, acc =>
    if isPreL sep (c :: rest) then
      acc.reverse :: splitOnSubAux sep rest (sep.length - 1) []
    else
      splitOnSubAux sep rest 0 (c :: acc)

/-- Python `s.split(sep)` for a non-empty separator. -/
def pySplitOn (s sep : Str) : List Str := splitOnSubAux sep s 0 []

/-- Helper for `removeAllSub`, with the same skip-counter convention as
`splitOnSubAux`. -/
def removeAllSubAux (old : Str) : Str → Nat → Str
  | [], _ => []
  | _ :: rest, k + 1 => removeAllSubAux old rest k
  | c :: rest, 0 =>
    if isPreL old (c :: rest) then removeAllSubAux old rest (old.length - 1)
    else c :: removeAllSubAux old rest 0

/-- Python `s.replace(old, "")` for a non-empty `old`. -/
def removeAllSub (s old : Str) : Str := removeAllSubAux old s 0

/-! ### `MultiAIClient._clean_response_text` (multi_ai_client.py 449-480) -/

/-- Helper for `collapseBacktickRuns`; the flag records whether the previous
character was a backtick. -/
def collapseBTAux : Str → Bool → Str
  | [], _ => []
  | c :: rest, inRun =>
    if c == backtick then
      if inRun then collapseBTAux rest true else backtick :: collapseBTAux rest true
    else c :: collapseBTAux rest false

/-- Model of `re.sub(r"`{2,}", "`", text)`: every maximal run of backticks becomes a
single backtick (runs of length one are already single). -/
def collapseBacktickRuns (s : Str) : Str := collapseBTAux s false

/-- Remove the first occurrence of a character, if any. -/
def removeFirstOcc (ch : Char) : Str → Str
  | [] => []
  | c :: rest => if c == ch then rest else c :: removeFirstOcc ch rest

/-- Remove the last occurrence of a character (`text.rfind` plus splice). -/
def removeLastOcc (ch : Char) (s : Str) : Str := (removeFirstOcc ch s.reverse).reverse

/-- Lines 459-466: collapse backtick runs, then drop the last backtick when
their count is odd. -/
def backtickRepair (t : Str) : Str :=
  if (collapseBacktickRuns t).count backtick % 2 ≠ 0 then
    removeLastOcc backtick (collapseBacktickRuns t)
  else collapseBacktickRuns t

/-- Lines 470-475: `text.replace(ch, "")` when the count of `ch` is odd. -/
def oddStrip (ch : Char) (t : Str) : Str :=
  if t.count ch % 2 ≠ 0 then t.filter (fun c => c != ch) else t

/-- The match of `\[([^\]]*)\]\([^\)]*$` starting just after a `[`:
the label runs to the first `]`, which must be followed by `(` and then by
no `)` up to the end of the string. -/
def linkLabelAt (afterBracket : Str) : Option Str :=
  let label := afterBracket.takeWhile (fun c => c != ']')
  match afterBracket.dropWhile (fun c => c != ']') with
  | ']' :: '(' :: junk => if junk.all (fun c => c != ')') then some label else none
  | _ => none

/-- Model of `re.sub(r"\[([^\]]*)\]\([^\)]*$", r"\1", text)`: replace the leftmost
trailing unterminated link markup by its display text. -/
def fixBrokenLink : Str → Str
  | [] => []
  | c :: rest =>
    if c == '[' then
      match linkLabelAt rest with
      | some label => label
      | none => c :: fixBrokenLink rest
    else c :: fixBrokenLink rest

/-- Model of `MultiAIClient._clean_response_text`. -/
def cleanResponseText (text : Str) : Str :=
  if text.isEmpty then text
  else pyStrip (fixBrokenLink (oddStrip '_' (oddStrip '*' (backtickRepair text))))

/-! ### Conversation memory data model (bot_handlers.py) -/

/-- One entry of the per-user conversation list
(`{"user": .., "assistant": .., "timestamp": ..}`). -/
structure Exchange where
  user : Str
  assistant : Str
  timestamp : Nat
deriving DecidableEq

/-- One entry of `memory["question_history"]`. -/
structure QuestionEntry where
  question : Str
  full_message : Str
  timestamp : Nat
  response_type : Str
deriving DecidableEq

/-- The per-user long-term-memory record.  The source also initialises
`preferences` and `response_preferences` as empty dicts, but no code ever
reads or writes them, so they are omitted here. -/
structure LongTermMemory where
  frequent_topics : List (Str × Nat)
  communication_style : List Str
  total_messages : Nat
  question_history : List QuestionEntry
  conversation_themes : List (Str × Nat)
deriving DecidableEq

/-- The record created for a user on first update (lines 209-218); the
self-healing merge of lines 222-235 is the identity on a typed record. -/
def freshMemory : LongTermMemory :=
  { frequent_topics := []
    communication_style := []
    total_messages := 0
    question_history := []
    conversation_themes := [] }

/-- Python `d[k] = d.get(k, 0) + 1` on an insertion-ordered dict. -/
def bumpCount (key : Str) : List (Str × Nat) → List (Str × Nat)
  | [] => [(key, 1)]
  | (k, v) :: rest =>
    if k = key then (k, v + 1) :: rest else (k, v) :: bumpCount key rest

/-- Insertion-ordered dict lookup. -/
def lookupCount (key : Str) (d : List (Str × Nat)) : Nat :=
  match d.find? (fun p => p.1 = key) with
  | some p => p.2
  | none => 0

/-- The `extended_keywords` list (lines 241-242). -/
def extendedKeywords : List Str :=
  [strOf "ذاكرة", strOf "تقييم", strOf "كم من 10", strOf "جيد", strOf "ممتاز",
   strOf "شلونك", strOf "صورة", strOf "مساعدة", strOf "كيف", strOf "شنو",
   strOf "وين", strOf "ليش", strOf "متى", strOf "أسئلة", strOf "معلومات",
   strOf "شرح"]

/-- Lines 243-245: bump the counter of every keyword contained in the
lowered user message. -/
def updateTopics (userLower : Str) (topics : List (Str × Nat)) : List (Str × Nat) :=
  extendedKeywords.foldl
    (fun d kw => if containsSub kw userLower then bumpCount kw d else d) topics

/-- The `question_patterns` table of `extract_question_essence` (lines 333-343),
in the fixed priority order of the source dict. -/
def questionPatterns : List (Str × Str) :=
  [(strOf "شنو", strOf "what_question"),
   (strOf "كيف", strOf "how_question"),
   (strOf "وين", strOf "where_question"),
   (strOf "متى", strOf "when_question"),
   (strOf "ليش", strOf "why_question"),
   (strOf "كم من 10", strOf "rating_question"),
   (strOf "شلونك", strOf "greeting_question"),
   (strOf "مساعدة", strOf "help_question"),
   (strOf "شرح", strOf "explain_request")]

/-- Model of `BotHandlers.extract_question_essence` (lines 328-353). -/
def extract_question_essence (message : Str) : Str :=
  let ml := lowerStr (pyStrip message)
  match questionPatterns.find? (fun p => containsSub p.1 ml) with
  | some p => p.2
  | none =>
    if containsSub (strOf "؟") message
        || containsAny ml [strOf "أريد", strOf "أبغى", strOf "عاوز", strOf "بدي"] then
      strOf "general_inquiry"
    else []

/-- Model of `BotHandlers.categorize_response` (lines 355-368). -/
def categorize_response (response : Str) : Str :=
  let rl := lowerStr response
  if containsAny rl [strOf "شرح", strOf "تفصيل", strOf "معلومات"] then
    strOf "detailed_explanation"
  else if containsAny rl [strOf "نعم", strOf "لا", strOf "صح", strOf "خطأ"] then
    strOf "simple_answer"
  else if containsAny rl [strOf "مساعدة", strOf "خدمة", strOf "أساعدك"] then
    strOf "helpful_guidance"
  else if containsSub (strOf "/10") response
      || containsAny rl [strOf "درجة", strOf "تقييم"] then
    strOf "rating_response"
  else strOf "general_response"

/-- The `theme_patterns` table of `detect_conversation_theme` (lines 374-380). -/
def themePatterns : List (Str × List Str) :=
  [(strOf "تقنية",
    [strOf "برمجة", strOf "كمبيوتر", strOf "إنترنت", strOf "تطبيق",
     strOf "موقع", strOf "ذكاء اصطناعي"]),
   (strOf "تعليمية",
    [strOf "شرح", strOf "تعلم", strOf "دراسة", strOf "كتاب",
     strOf "معلومات", strOf "أسئلة"]),
   (strOf "شخصية",
    [strOf "شلونك", strOf "كيفك", strOf "أخبار", strOf "حال", strOf "صحة"]),
   (strOf "طلب مساعدة",
    [strOf "مساعدة", strOf "ساعدني", strOf "أحتاج", strOf "بدي", strOf "أريد"]),
   (strOf "تقييم",
    [strOf "كم من 10", strOf "تقييم", strOf "رأي", strOf "درجة",
     strOf "جيد", strOf "ممتاز"])]

/-- Model of `BotHandlers.detect_conversation_theme` (lines 370-386). -/
def detect_conversation_theme (message : Str) : Str :=
  let ml := lowerStr message
  match themePatterns.find? (fun t => t.2.any (fun kw => containsSub kw ml)) with
  | some t => t.1
  | none => strOf "عام"

/-- The `follow_up_indicators` list (line 395). -/
def followUpIndicators : List Str :=
  [strOf "وبعدين", strOf "كمان", strOf "أيضاً", strOf "لكن",
   strOf "ماذا عن", strOf "وإيش", strOf "وشنو"]

/-- Model of `BotHandlers.has_conversation_progression` (lines 388-402). -/
def has_conversation_progression (messages : List Str) : Bool :=
  if messages.length < 2 then false
  else (messages.drop 1).any (fun m => containsAny (lowerStr m) followUpIndicators)

/-- The three communication-style descriptors (lines 262-271). -/
def ratingDescriptor : Str := strOf "يحب التقييمات الرقمية"

/-- Descriptor added for messages of at most three words. -/
def shortMessagesDescriptor : Str := strOf "يستخدم رسائل قصيرة"

/-- Descriptor added for messages of more than fifteen words. -/
def detailedDescriptor : Str := strOf "يفضل الشرح المفصل"

/-- Python `l[-n:]`. -/
def lastN (n : Nat) (l : List α) : List α := l.drop (l.length - n)

/-- Lines 262-265 of `update_long_term_memory`: add the rating descriptor
once when the message mentions rating-out-of-10 phrasing. -/
def ratingStyleStep (style : List Str) (userLower : Str) : List Str :=
  if containsSub (strOf "من 10") userLower || containsSub (strOf "كم من 10") userLower then
    if ratingDescriptor ∉ style then style ++ [ratingDescriptor] else style
  else style

/-- Lines 266-271 of `update_long_term_memory`: add the short-messages
descriptor once for at most three words, or the detailed descriptor once
for more than fifteen. -/
def lengthStyleStep (style : List Str) (userMessage : Str) : List Str :=
  if wordCount userMessage ≤ 3 then
    if shortMessagesDescriptor ∉ style then style ++ [shortMessagesDescriptor] else style
  else if wordCount userMessage > 15 then
    if detailedDescriptor ∉ style then style ++ [detailedDescriptor] else style
  else style

/-- The whole communication-style pipeline (lines 261-271). -/
def styleAfter (style : List Str) (userMessage : Str) : List Str :=
  lengthStyleStep (ratingStyleStep style (lowerStr userMessage)) userMessage

/-- Lines 247-259 of `update_long_term_memory`: track the question essence
(when there is one) and keep the last twenty entries. -/
def questionHistoryStep (qh : List QuestionEntry)
    (userMessage botResponse : Str) (now : Nat) : List QuestionEntry :=
  let essence := extract_question_essence userMessage
  if essence ≠ [] then
    let qh := qh ++
      [{ question := essence
         full_message := userMessage
         timestamp := now
         response_type := categorize_response botResponse }]
    if qh.length > 20 then lastN 20 qh else qh
  else qh

/-- Lines 273-276 of `update_long_term_memory`: bump the detected theme
counter (`detect_conversation_theme` never returns the empty string, so
the guard is always taken). -/
def themeStep (themes : List (Str × Nat)) (userMessage : Str) : List (Str × Nat) :=
  let theme := detect_conversation_theme userMessage
  if theme ≠ [] then bumpCount theme themes else themes

/-- Model of `BotHandlers.update_long_term_memory` (lines 207-276), acting on the
(possibly absent) record of one user; `now` is the `time.time()` value. -/
def update_long_term_memory (mem : Option LongTermMemory)
    (userMessage botResponse : Str) (now : Nat) : LongTermMemory :=
  let m := mem.getD freshMemory
  { total_messages := m.total_messages + 1
    frequent_topics := updateTopics (lowerStr userMessage) m.frequent_topics
    question_history := questionHistoryStep m.question_history userMessage botResponse now
    communication_style := styleAfter m.communication_style userMessage
    conversation_themes := themeStep m.conversation_themes userMessage }

/-! ### Bot state and its operations (bot_handlers.py) -/

/-- The mutable state owned by the `BotHandlers` instance. -/
structure BotState where
  users : Finset Int
  group_status : Int → Option Bool
  conversations : Int → List Exchange
  long_term_memory : Int → Option LongTermMemory

/-- The state right after `__init__` with no persisted files. -/
def initialState : BotState :=
  { users := ∅
    group_status := fun _ => none
    conversations := fun _ => []
    long_term_memory := fun _ => none }

/-- The constant `self.max_messages_per_user` (line 35). -/
def max_messages_per_user : Nat := 100

/-- Model of `BotHandlers.add_user` (lines 70-73). -/
def add_user (st : BotState) (userId : Int) : BotState :=
  { st with users := insert userId st.users }

/-- Model of `BotHandlers.set_group_status` (lines 95-98). -/
def set_group_status (st : BotState) (chatId : Int) (active : Bool) : BotState :=
  { st with group_status := fun c => if c = chatId then some active else st.group_status c }

/-- Model of `BotHandlers.is_group_active` (lines 100-104). -/
def is_group_active (st : BotState) (chatId : Int) : Bool :=
  if chatId > 0 then true else (st.group_status chatId).getD true

/-- Model of `BotHandlers.add_message_to_conversation` (lines 130-154).  The file
saves at the end are best-effort writes of the same data and carry no extra
state. -/
def add_message_to_conversation (st : BotState) (userId : Int)
    (userMessage botResponse : Str) (now : Nat) : BotState :=
  let conv := st.conversations userId ++
    [{ user := userMessage, assistant := botResponse, timestamp := now }]
  let conv := if conv.length > max_messages_per_user then lastN max_messages_per_user conv else conv
  { st with
    conversations := fun u => if u = userId then conv else st.conversations u
    long_term_memory := fun u =>
      if u = userId then
        some (update_long_term_memory (st.long_term_memory u) userMessage botResponse now)
      else st.long_term_memory u }

/-- A sequence of `add_message_to_conversation` calls,
each `(userId, userMessage, botResponse, now)`. -/
def runAddCalls (st : BotState) (calls : List (Int × Str × Str × Nat)) : BotState :=
  calls.foldl (fun s c => add_message_to_conversation s c.1 c.2.1 c.2.2.1 c.2.2.2) st

/-- Model of `BotHandlers.clear_conversation` (lines 404-408): delete the user's
conversation list (and nothing else). -/
def clear_conversation (st : BotState) (userId : Int) : BotState :=
  { st with conversations := fun u => if u = userId then [] else st.conversations u }

/-- Decimal rendering of a number for an f-string slot. -/
def natToStr (n : Nat) : Str := (toString n).data

/-- Model of `BotHandlers.get_user_patterns` (lines 278-297). -/
def get_user_patterns (st : BotState) (userId : Int) : Str :=
  match st.long_term_memory userId with
  | none => []
  | some memory =>
    let patterns : List Str :=
      (if memory.total_messages > 5 then
        [strOf "عدد الرسائل الكلي: " ++ natToStr memory.total_messages]
       else []) ++
      (if memory.frequent_topics ≠ [] then
        let top := (memory.frequent_topics.mergeSort (fun a b => decide (b.2 ≤ a.2))).take 3
        [strOf "المواضيع المفضلة: " ++
          List.intercalate (strOf ", ")
            (top.map (fun t => t.1 ++ strOf " (" ++ natToStr t.2 ++ strOf ")"))]
       else []) ++
      (if memory.communication_style ≠ [] then
        [strOf "نمط التواصل: " ++ List.intercalate (strOf ", ") memory.communication_style]
       else [])
    List.intercalate (strOf " | ") patterns

/-- Model of `BotHandlers.analyze_conversation_patterns` (lines 299-326). -/
def analyze_conversation_patterns (st : BotState) (userId : Int) : Str :=
  match st.long_term_memory userId with
  | none => []
  | some memory =>
    if st.conversations userId = [] then []
    else
      let analysis : List Str :=
        (if memory.question_history.length > 1 then
          let recent := lastN 5 memory.question_history
          let counts := recent.foldl (fun d q => bumpCount q.question d) []
          let repeated := (counts.filter (fun p => p.2 > 1)).map (fun p => p.1)
          if repeated ≠ [] then
            [strOf "أسئلة متكررة: " ++ List.intercalate (strOf ", ") (repeated.take 2)]
          else []
         else []) ++
        (if (st.conversations userId).length ≥ 3 then
          let recents := (lastN 3 (st.conversations userId)).map (fun e => e.user)
          if has_conversation_progression recents then [strOf "المحادثة متدرجة ومترابطة"]
          else [strOf "أسئلة متنوعة غير مترابطة"]
         else [])
      List.intercalate (strOf " | ") analysis

/-- Lines 165-168: the numbered rendering of the recent exchanges. -/
def renderExchanges (exs : List Exchange) : Str :=
  ((exs.enumFrom 1).map (fun p =>
    strOf "#" ++ natToStr p.1 ++ strOf " المستخدم: " ++ p.2.user ++ strOf "\n" ++
    strOf "البوت: " ++ p.2.assistant ++ strOf "\n\n")).flatten

/-- The fixed tail appended by lines 180-182 of
`get_conversation_context`. -/
def contextInstructionSuffix : Str :=
  strOf "=== التعليمات المحسنة ===\n" ++
  strOf "اعتمد على السياق أعلاه للرد بذكاء. لا تكرر نفس الردود للأسئلة المتشابهة - نوع في إجاباتك واربط مع المحادثات السابقة. إذا سأل نفس السؤال مرة ثانية، اعرف إنه يريد تفصيل أكثر أو زاوية مختلفة.\n" ++
  strOf "=== الرسالة الجديدة ===\n"

/-- Model of `BotHandlers.get_conversation_context` (lines 156-183). -/
def get_conversation_context (st : BotState) (userId : Int) : Str :=
  if st.conversations userId = [] then []
  else
    let context := strOf "=== المحادثة السابقة ===\n"
    let context := context ++ renderExchanges (lastN 8 (st.conversations userId))
    let patterns := get_user_patterns st userId
    let context :=
      if patterns ≠ [] then
        context ++ strOf "=== أنماط المستخدم ===\n" ++ patterns ++ strOf "\n\n"
      else context
    let summary := analyze_conversation_patterns st userId
    let context :=
      if summary ≠ [] then
        context ++ strOf "=== تحليل المحادثة ===\n" ++ summary ++ strOf "\n\n"
      else context
    context ++ contextInstructionSuffix

/-! ### The message-routing gate of `handle_message` (lines 1534-1591) -/

/-- What the prefix of `handle_message` decides for one inbound text. -/
inductive GateResult where
  | reply (text : Str)
  | drop
  | proceed
deriving DecidableEq

/-- Activation trigger phrases (line 1550). -/
def activationPhrases : List Str :=
  [strOf "سولف", strOf "سولف يا بوت", strOf "تكلم", strOf "رد", strOf "فعل البوت"]

/-- Deactivation trigger phrases (line 1560). -/
def deactivationPhrases : List Str :=
  [strOf "انجب", strOf "اسكت", strOf "انجب يا بوت", strOf "لا ترد",
   strOf "عطل البوت", strOf "توقف"]

/-- The group-control prefix of `BotHandlers.handle_message`
(lines 1546-1591): track the user, handle the trigger phrases, drop the
message when the group is silenced, otherwise hand it to the mode
handlers (`GateResult.proceed`). -/
def handle_message_gate (st : BotState) (userId chatId : Int)
    (userMessage : Str) : BotState × GateResult :=
  let st := add_user st userId
  let norm := lowerStr (pyStrip userMessage)
  if norm ∈ activationPhrases then
    if chatId < 0 then
      (set_group_status st chatId true,
       .reply (strOf "🔊 تمام! البوت صار فعال وراح أرد على كلامكم."))
    else
      (st, .reply (strOf "💬 هذا الأمر مخصص للمجموعات فقط. بالمحادثات الخاصة أني أرد دائماً."))
  else if norm ∈ deactivationPhrases then
    if chatId < 0 then
      (set_group_status st chatId false,
       .reply (strOf "🔇 تمام! البوت صار صامت ومراح أرد على أي كلام."))
    else
      (st, .reply (strOf "💬 هذا الأمر مخصص للمجموعات فقط. بالمحادثات الخاصة أني أرد دائماً."))
  else if ¬ is_group_active st chatId then (st, .drop)
  else (st, .proceed)

/-! ### Broadcast delivery (bot_handlers.py 1142-1196) -/

/-- Outcome of one `context.bot.send_message` call, an opaque input. -/
inductive SendOutcome where
  | ok
  | err (message : Str)
deriving DecidableEq

/-- Line 1177: the error text signals that the recipient blocked the bot or
no longer exists. -/
def blockedSignal (e : Str) : Bool :=
  containsSub (strOf "bot was blocked") (lowerStr e)
    || containsSub (strOf "chat not found") (lowerStr e)

/-- Whether a delivery outcome is an error with the blocked signal. -/
def outcomeBlocked : SendOutcome → Bool
  | .ok => false
  | .err e => blockedSignal e

/-- Whether a delivery outcome is an error. -/
def outcomeFailed : SendOutcome → Bool
  | .ok => false
  | .err _ => true

/-- The evolving users set and counters of `send_targeted_broadcast`. -/
structure BroadcastTally where
  users : Finset Int
  sent : Nat
  failed : Nat
  not_found : Nat
deriving DecidableEq

/-- The body of the per-recipient loop (lines 1156-1181). -/
def broadcastStep (deliver : Int → SendOutcome) (t : BroadcastTally)
    (userId : Int) : BroadcastTally :=
  if userId ∉ t.users then { t with not_found := t.not_found + 1 }
  else
    match deliver userId with
    | .ok => { t with sent := t.sent + 1 }
    | .err e =>
      { t with
        failed := t.failed + 1
        users := if blockedSignal e then t.users.erase userId else t.users }

/-- Model of `BotHandlers.send_targeted_broadcast` (lines 1142-1196), with the
per-recipient delivery outcomes as an opaque input. -/
def send_targeted_broadcast (deliver : Int → SendOutcome) (users : Finset Int)
    (targets : List Int) : BroadcastTally :=
  targets.foldl (broadcastStep deliver) ⟨users, 0, 0, 0⟩

/-! ### `MultiAIClient` text generation (multi_ai_client.py 69-217) -/

/-- Outcome of one opaque provider network call: either a response whose
content field is `text` (possibly empty), or a raised exception whose
message is `message`. -/
inductive ProviderResult where
  | ok (text : Str)
  | err (message : Str)
deriving DecidableEq

/-- Line 114: the exception message indicates a credit / payment / quota
failure. -/
def quotaErrorIndicated (e : Str) : Bool :=
  containsSub (strOf "402") e
    || containsSub (strOf "credit") (lowerStr e)
    || containsSub (strOf "payment") (lowerStr e)

/-- The apology returned on a non-quota primary error (line 117). -/
def processingErrorMessage : Str :=
  strOf "معذرة، صار خطأ وقت معالجة طلبك. جرب مرة ثانية باجر."

/-- Hardcoded last-resort fallback of `_fallback_to_gemini`
(lines 172-217): keyword-selected localized messages. -/
def carsFallbackMessage : Str :=
  strOf "اشوف انك تسأل عن السيارات! 🚗\n\nممكن اساعدك بمعلومات عن:\n🔧 انواع السيارات\n💰 اسعار السيارات\n⚙️ مواصفات وتقييمات\n🔍 نصائح للشراء\n\nوضحلي اكثر شنو تحتاج وراح اساعدك!"

/-- Hardcoded fallback for quiz / poll requests (lines 190-198). -/
def quizFallbackMessage : Str :=
  strOf "أشوف إنك تريد تسوي اختبار أو استطلاع! 📊\n\nاستخدم هاي الأوامر:\n🎓 /quiz - للاختبار التعليمي (سادس ابتدائي)\n📋 /create_poll - لإنشاء استطلاع مخصص\n📚 /help_poll - للمساعدة والشرح\n\nمثال: /create_poll شنو رأيكم بالبوت؟,ممتاز,جيد,يحتاج تطوير"

/-- Hardcoded fallback for help-like requests (lines 199-208). -/
def helpFallbackMessage : Str :=
  strOf "اكيد اكدر اساعدك! 💪\n\nممكن استخدام:\n❓ /help - للمساعدة الشاملة\n💬 /chat - للمحادثة الذكية\n🎨 /image - لإنشاء الصور\n📊 /create_poll - للاستطلاعات\n\nاو اكتبلي مباشرة شتريد واكدر اساعدك!"

/-- Hardcoded generic fallback (lines 209-217). -/
def genericFallbackMessage : Str :=
  strOf "فهمت طلبك بس صار خطأ مؤقت! 🔄\n\nجرب مرة ثانية او استخدم:\n💬 /chat - للمحادثة العادية\n❓ /help - للمساعدة\n\nاكتبلي بطريقة مختلفة واكدر اساعدك اكثر!"

/-- Lines 176-217: choose the hardcoded fallback by keyword scan of the
lowered user message. -/
def hardcodedFallbackResponse (userMessage : Str) : Str :=
  let ul := lowerStr userMessage
  if containsSub (strOf "سيارات") ul || containsSub (strOf "سيارة") ul then
    carsFallbackMessage
  else if containsAny ul
      [strOf "اختبار", strOf "استطلاع", strOf "سؤال", strOf "استفتاء", strOf "امتحان"] then
    quizFallbackMessage
  else if containsAny ul
      [strOf "مساعدة", strOf "شلون", strOf "كيف", strOf "وين", strOf "اريد", strOf "ممكن"] then
    helpFallbackMessage
  else genericFallbackMessage

/-- Model of `MultiAIClient._fallback_to_gemini` (lines 119-217); `gemini` is `none`
when no `GEMINI_API_KEY` was configured, otherwise the opaque outcome of
the Gemini call. -/
def fallback_to_gemini (gemini : Option ProviderResult) (userMessage : Str) : Str :=
  match gemini with
  | some (.ok t) => if t ≠ [] then pyStrip t else hardcodedFallbackResponse userMessage
  | some (.err _) => hardcodedFallbackResponse userMessage
  | none => hardcodedFallbackResponse userMessage

/-- Model of `MultiAIClient.generate_response` (lines 69-117); `primary` is the
opaque outcome of the GPT call, `gemini` that of the fallback call. -/
def generate_response (primary : ProviderResult) (gemini : Option ProviderResult)
    (userMessage : Str) : Str :=
  match primary with
  | .ok t => if t ≠ [] then pyStrip t else fallback_to_gemini gemini userMessage
  | .err e =>
    if quotaErrorIndicated e then fallback_to_gemini gemini userMessage
    else processingErrorMessage

/-! ### `MultiAIClient` creative description parsing (lines 648-666) -/

/-- The first section marker of the dual-part convention. -/
def englishMarker : Str := strOf "ENGLISH_PROMPT:"

/-- The second section marker of the dual-part convention. -/
def arabicMarker : Str := strOf "ARABIC_DESCRIPTION:"

/-- Model of `MultiAIClient._create_fallback_creative_description` (lines 662-666):
the templated `(arabic_description, english_prompt)` pair. -/
def create_fallback_creative_description (description : Str) : Str × Str :=
  let englishPart := strOf "A beautiful, high-quality artistic image of " ++ description ++
    strOf ", professional photography, detailed, vibrant colors, excellent lighting"
  let arabicPart := strOf "صورة حلوة ومفصلة لـ " ++ description ++
    strOf " بألوان زاهية وإضاءة ممتازة، تصوير احترافي عالي الجودة"
  (arabicPart, englishPart)

/-- Model of `MultiAIClient._parse_creative_response` (lines 648-660).  When both
markers are present, `split` yields at least two parts, so the `parts[1]`
access cannot raise and the `except` arm is unreachable; the `headD` /
`getD` defaults below are likewise unreachable. -/
def parse_creative_response (response description : Str) : Str × Str :=
  if containsSub englishMarker response && containsSub arabicMarker response then
    let parts := pySplitOn response arabicMarker
    let englishPart := pyStrip (removeAllSub (parts.headD []) englishMarker)
    let arabicPart := pyStrip (parts.getD 1 [])
    (arabicPart, englishPart)
  else create_fallback_creative_description description

/-! ### `MultiAIClient.generate_image` (lines 219-268) and the failure
branch of `BotHandlers._handle_image_request` (lines 1655-1716) -/

/-- Model of `MultiAIClient.generate_image`: the pair is the returned success flag
and the list of files written.  After the availability check the function
logs and unconditionally returns `False` (line 241) before any
provider-response handling; the code below that return is unreachable. -/
def generate_image (geminiAvailable : Bool) (_prompt _imagePath : Str) :
    Bool × List Str :=
  if ¬ geminiAvailable then (false, [])
  else (false, [])

/-- What `_handle_image_request` does after `generate_image` returns. -/
inductive ImageRequestOutcome where
  | sentPhoto
  | failureReply (hasGeminiKey : Bool)
deriving DecidableEq

/-- The success / failure branch of `_handle_image_request`
(lines 1679-1710): the photo is sent only when `generate_image` returned
`True` and the file exists; otherwise one of the two failure edits is
shown, chosen by the presence of the Gemini key. -/
def handle_image_request_outcome (geminiAvailable : Bool)
    (prompt imagePath : Str) (fileExists : Bool) : ImageRequestOutcome :=
  let success := (generate_image geminiAvailable prompt imagePath).1
  if success && fileExists then .sentPhoto
  else .failureReply geminiAvailable

/-! ### Example states used by the witnesses -/

/-- A small reachable state: user 1 and user 2 each sent one chat message. -/
def exampleState : BotState :=
  add_message_to_conversation
    (add_message_to_conversation initialState 1 (strOf "هلا") (strOf "اهلا وسهلا") 10)
    2 (strOf "شلونك") (strOf "زين الحمد لله") 11

/-- A state whose user 1 already stores exactly 100 exchanges. -/
def fullState : BotState :=
  { initialState with
    conversations := fun u =>
      if u = 1 then List.replicate 100 { user := strOf "م", assistant := strOf "ر", timestamp := 0 }
      else [] }

/-! ### C10 -/

/-- C10: `generate_image` returns `False` for every prompt and target path,
writes no file and raises nothing, so every image request ends in the
failure branch of `_handle_image_request`. -/
theorem C10_generate_image_always_fails (geminiAvailable fileExists : Bool)
    (prompt imagePath : Str) :
    generate_image geminiAvailable prompt imagePath = (false, []) ∧
    handle_image_request_outcome geminiAvailable prompt imagePath fileExists
      = ImageRequestOutcome.failureReply geminiAvailable := by
  refine ⟨?_, ?_⟩
  · unfold generate_image; split <;> rfl
  · unfold handle_image_request_outcome generate_image; split <;> rfl

/-! ### C8 -/

/-- C8: clearing a conversation deletes only that user's conversation list;
every other user's history, the whole long-term-memory store (hence the
clearing user's record), the known-users set and the group flags are
unchanged. -/
theorem C8_clear_conversation_frame (st : BotState) (userId otherId : Int)
    (h : otherId ≠ userId) :
    (clear_conversation st userId).conversations otherId = st.conversations otherId ∧
    (clear_conversation st userId).conversations userId = [] ∧
    (clear_conversation st userId).long_term_memory = st.long_term_memory ∧
    (clear_conversation st userId).long_term_memory userId = st.long_term_memory userId ∧
    (clear_conversation st userId).users = st.users ∧
    (clear_conversation st userId).group_status = st.group_status := by
  refine ⟨?_, ?_, rfl, rfl, rfl, rfl⟩ <;> simp [clear_conversation, h]

/-- Witness for C8 at a concrete populated state. -/
theorem C8_clear_conversation_frame_witness :
    (clear_conversation exampleState 1).conversations 2 = exampleState.conversations 2 ∧
    (clear_conversation exampleState 1).conversations 1 = [] ∧
    (clear_conversation exampleState 1).long_term_memory = exampleState.long_term_memory ∧
    (clear_conversation exampleState 1).long_term_memory 1 = exampleState.long_term_memory 1 ∧
    (clear_conversation exampleState 1).users = exampleState.users ∧
    (clear_conversation exampleState 1).group_status = exampleState.group_status :=
  C8_clear_conversation_frame exampleState 1 2 (by decide)

/-! ### C4 -/

/-- No phrase is in both trigger lists. -/
theorem deactivation_not_activation :
    ∀ s ∈ deactivationPhrases, s ∉ activationPhrases := by decide

/-- Activation phrases are not deactivation phrases. -/
theorem activation_not_deactivation :
    ∀ s ∈ activationPhrases, s ∉ deactivationPhrases := by decide

/-- Tracking a user does not touch the group flags. -/
theorem is_group_active_add_user (st : BotState) (userId chatId : Int) :
    is_group_active (add_user st userId) chatId = is_group_active st chatId := rfl

/-- C4: in a group chat the deactivation phrase silences the group; while
silenced, every non-trigger group message is dropped with no reply and no
handler (only the user-tracking set changes); the activation phrase
reactivates the group; active groups hand non-trigger messages to the
handlers; private chats are always active regardless of the stored flag. -/
theorem C4_group_silencing_gate (st : BotState) (userId chatId : Int) (msg : Str) :
    (chatId < 0 → lowerStr (pyStrip msg) ∈ deactivationPhrases →
      is_group_active (handle_message_gate st userId chatId msg).1 chatId = false) ∧
    (chatId < 0 → is_group_active st chatId = false →
      lowerStr (pyStrip msg) ∉ activationPhrases →
      lowerStr (pyStrip msg) ∉ deactivationPhrases →
      (handle_message_gate st userId chatId msg).2 = GateResult.drop ∧
      (handle_message_gate st userId chatId msg).1 = add_user st userId ∧
      (handle_message_gate st userId chatId msg).1.conversations = st.conversations ∧
      (handle_message_gate st userId chatId msg).1.group_status = st.group_status) ∧
    (chatId < 0 → lowerStr (pyStrip msg) ∈ activationPhrases →
      is_group_active (handle_message_gate st userId chatId msg).1 chatId = true) ∧
    (is_group_active st chatId = true →
      lowerStr (pyStrip msg) ∉ activationPhrases →
      lowerStr (pyStrip msg) ∉ deactivationPhrases →
      (handle_message_gate st userId chatId msg).2 = GateResult.proceed) ∧
    (chatId > 0 → is_group_active st chatId = true) := by
  refine ⟨?_, ?_, ?_, ?_, ?_⟩
  · intro hc hde
    have hna : lowerStr (pyStrip msg) ∉ activationPhrases :=
      deactivation_not_activation _ hde
    have hng : ¬ (chatId > 0) := by omega
    simp only [handle_message_gate]
    rw [if_neg hna, if_pos hde, if_pos hc]
    simp [is_group_active, set_group_status, hng]
  · intro hc hinact hna hnd
    have hgate : ¬ is_group_active (add_user st userId) chatId = true := by
      rw [is_group_active_add_user, hinact]; simp
    simp only [handle_message_gate]
    rw [if_neg hna, if_neg hnd, if_pos hgate]
    exact ⟨rfl, rfl, rfl, rfl⟩
  · intro hc hac
    have hng : ¬ (chatId > 0) := by omega
    simp only [handle_message_gate]
    rw [if_pos hac, if_pos hc]
    simp [is_group_active, set_group_status, hng]
  · intro hact hna hnd
    have hgate : ¬ ¬ is_group_active (add_user st userId) chatId = true := by
      rw [is_group_active_add_user, hact]; simp
    simp only [handle_message_gate]
    rw [if_neg hna, if_neg hnd, if_neg hgate]
  · intro hc
    unfold is_group_active
    rw [if_pos hc]

/-- Witness for C4: silence group -100, observe a dropped message, then
reactivate; a private chat is active in the silenced state. -/
theorem C4_group_silencing_gate_witness :
    is_group_active
      (handle_message_gate initialState 7 (-100) (strOf "انجب")).1 (-100) = false ∧
    (handle_message_gate
      (handle_message_gate initialState 7 (-100) (strOf "انجب")).1
      7 (-100) (strOf "هلا شلونكم")).2 = GateResult.drop ∧
    is_group_active
      (handle_message_gate
        (handle_message_gate initialState 7 (-100) (strOf "انجب")).1
        7 (-100) (strOf "سولف")).1 (-100) = true ∧
    is_group_active
      (handle_message_gate initialState 7 (-100) (strOf "انجب")).1 42 = true := by
  have h1 := (C4_group_silencing_gate initialState 7 (-100) (strOf "انجب")).1
    (by decide) (by decide)
  refine ⟨h1, ?_, ?_, ?_⟩
  · exact ((C4_group_silencing_gate _ 7 (-100) (strOf "هلا شلونكم")).2.1
      (by decide) h1 (by decide) (by decide)).1
  · exact (C4_group_silencing_gate _ 7 (-100) (strOf "سولف")).2.2.1
      (by decide) (by decide)
  · exact (C4_group_silencing_gate _ 7 42 (strOf "")).2.2.2.2 (by decide)

/-! ### C3 -/

/-- The fixed instruction suffix is not empty. -/
theorem contextInstructionSuffix_ne_nil : contextInstructionSuffix ≠ [] := by decide

/-- C3: `get_conversation_context` returns the empty string for a user with
no recorded history, and for a user with history a non-empty string that
ends with the fixed instruction suffix. -/
theorem C3_context_empty_or_suffixed (st : BotState) (userId : Int) :
    (st.conversations userId = [] → get_conversation_context st userId = []) ∧
    (st.conversations userId ≠ [] →
      get_conversation_context st userId ≠ [] ∧
      ∃ p, get_conversation_context st userId = p ++ contextInstructionSuffix) := by
  constructor
  · intro h
    simp [get_conversation_context, h]
  · intro h
    have hsplit : ∃ p, get_conversation_context st userId = p ++ contextInstructionSuffix := by
      simp only [get_conversation_context, if_neg h]
      exact ⟨_, rfl⟩
    obtain ⟨p, hp⟩ := hsplit
    refine ⟨?_, ⟨p, hp⟩⟩
    rw [hp]
    simp [List.append_eq_nil, contextInstructionSuffix_ne_nil]

/-- Witness for C3: user 99 has no history in `exampleState`, user 1 has
one exchange. -/
theorem C3_context_empty_or_suffixed_witness :
    get_conversation_context exampleState 99 = [] ∧
    (get_conversation_context exampleState 1 ≠ [] ∧
     ∃ p, get_conversation_context exampleState 1 = p ++ contextInstructionSuffix) :=
  ⟨(C3_context_empty_or_suffixed exampleState 99).1 (by decide),
   (C3_context_empty_or_suffixed exampleState 1).2 (by decide)⟩

/-! ### C1 -/

/-- Unfolding of the updated conversation list of the written user. -/
theorem add_message_conversations_self (st : BotState) (userId : Int)
    (m r : Str) (now : Nat) :
    (add_message_to_conversation st userId m r now).conversations userId
      = (if (st.conversations userId
            ++ [({ user := m, assistant := r, timestamp := now } : Exchange)]).length
            > max_messages_per_user
         then lastN max_messages_per_user (st.conversations userId
            ++ [({ user := m, assistant := r, timestamp := now } : Exchange)])
         else st.conversations userId
            ++ [({ user := m, assistant := r, timestamp := now } : Exchange)]) := by
  simp [add_message_to_conversation]

/-- Other users' conversation lists are untouched by an insert. -/
theorem add_message_conversations_other (st : BotState) (userId u : Int)
    (m r : Str) (now : Nat) (h : u ≠ userId) :
    (add_message_to_conversation st userId m r now).conversations u
      = st.conversations u := by
  simp [add_message_to_conversation, h]

/-- One `add_message_to_conversation` call keeps every user's conversation
list within the bound. -/
theorem add_message_preserves_bound (st : BotState) (userId : Int)
    (m r : Str) (now : Nat)
    (h : ∀ u, (st.conversations u).length ≤ max_messages_per_user) :
    ∀ u, ((add_message_to_conversation st userId m r now).conversations u).length
      ≤ max_messages_per_user := by
  intro u
  by_cases hu : u = userId
  · subst hu
    rw [add_message_conversations_self]
    by_cases hlen : (st.conversations u
        ++ [({ user := m, assistant := r, timestamp := now } : Exchange)]).length
        > max_messages_per_user
    · rw [if_pos hlen]
      simp only [lastN, List.length_drop]
      omega
    · rw [if_neg hlen]
      omega
  · rw [add_message_conversations_other st userId u m r now hu]
    exact h u

/-- The bound holds for every state reachable from the initial state. -/
theorem runAddCalls_bound (calls : List (Int × Str × Str × Nat)) :
    ∀ (st : BotState), (∀ u, (st.conversations u).length ≤ max_messages_per_user) →
      ∀ u, ((runAddCalls st calls).conversations u).length ≤ max_messages_per_user := by
  induction calls with
  | nil => intro st h u; exact h u
  | cons c rest ih =>
    intro st h u
    exact ih _ (add_message_preserves_bound st c.1 c.2.1 c.2.2.1 c.2.2.2 h) u

/-- C1: starting from the initial state, no conversation list ever exceeds
100 entries; an insert below the bound appends at the tail (insertion order
preserved); an insert into a list of exactly 100 entries drops the head —
the oldest exchange — and appends the new one. -/
theorem C1_conversation_bound_and_fifo :
    (∀ (calls : List (Int × Str × Str × Nat)) (userId : Int),
      ((runAddCalls initialState calls).conversations userId).length
        ≤ max_messages_per_user) ∧
    (∀ (st : BotState) (userId : Int) (m r : Str) (now : Nat),
      (st.conversations userId).length < max_messages_per_user →
      (add_message_to_conversation st userId m r now).conversations userId
        = st.conversations userId ++ [{ user := m, assistant := r, timestamp := now }]) ∧
    (∀ (st : BotState) (userId : Int) (m r : Str) (now : Nat),
      (st.conversations userId).length = max_messages_per_user →
      (add_message_to_conversation st userId m r now).conversations userId
        = (st.conversations userId).drop 1
            ++ [{ user := m, assistant := r, timestamp := now }]) := by
  refine ⟨?_, ?_, ?_⟩
  · intro calls userId
    exact runAddCalls_bound calls initialState (fun _ => by simp [initialState]) userId
  · intro st userId m r now h
    rw [add_message_conversations_self]
    have hlen : ¬ ((st.conversations userId ++
        [({ user := m, assistant := r, timestamp := now } : Exchange)]).length
        > max_messages_per_user) := by
      simp only [List.length_append, List.length_cons, List.length_nil]
      omega
    rw [if_neg hlen]
  · intro st userId m r now h
    rw [add_message_conversations_self]
    have hlen : (st.conversations userId ++
        [({ user := m, assistant := r, timestamp := now } : Exchange)]).length
        > max_messages_per_user := by
      simp only [List.length_append, List.length_cons, List.length_nil]
      omega
    rw [if_pos hlen, lastN]
    simp only [List.length_append, List.length_cons, List.length_nil, h]
    have h1 : max_messages_per_user + 1 - max_messages_per_user = 1 := by omega
    rw [h1, List.drop_append_of_le_length (by rw [h]; decide)]

/-- Witness for C1: a one-call run stays bounded; an append below the bound
keeps order; an insert into the 100-entry list of `fullState` evicts the
head. -/
theorem C1_conversation_bound_and_fifo_witness :
    ((runAddCalls initialState [(1, strOf "هلا", strOf "اهلا وسهلا", 0)]).conversations 1).length
      ≤ max_messages_per_user ∧
    (add_message_to_conversation initialState 1 (strOf "هلا") (strOf "اهلا وسهلا") 0).conversations 1
      = initialState.conversations 1
          ++ [({ user := strOf "هلا", assistant := strOf "اهلا وسهلا", timestamp := 0 } : Exchange)] ∧
    (add_message_to_conversation fullState 1 (strOf "هلا") (strOf "اهلا وسهلا") 7).conversations 1
      = (fullState.conversations 1).drop 1
          ++ [({ user := strOf "هلا", assistant := strOf "اهلا وسهلا", timestamp := 7 } : Exchange)] :=
  ⟨C1_conversation_bound_and_fifo.1 [(1, strOf "هلا", strOf "اهلا وسهلا", 0)] 1,
   C1_conversation_bound_and_fifo.2.1 initialState 1 _ _ 0 (by simp [initialState, max_messages_per_user]),
   C1_conversation_bound_and_fifo.2.2 fullState 1 _ _ 7 (by simp [fullState, max_messages_per_user])⟩

/-! ### C9 -/

/-- C9 counterexample: a response that contains both markers but with
nothing between or after them parses to the pair of empty halves — the
templated fallback is not used, contrary to the claim that an empty half
triggers the fallback. -/
theorem C9_counterexample :
    parse_creative_response (strOf "ENGLISH_PROMPT:ARABIC_DESCRIPTION:") (strOf "قط")
      = ([], []) ∧
    create_fallback_creative_description (strOf "قط") ≠ ([], []) := by
  constructor <;> decide

/-- C9 (amended): when either section marker is missing the templated
fallback pair is returned (and parsing never raises); when both markers are
present the split-and-strip halves are returned as-is, even when they are
empty. -/
theorem C9_missing_markers_fallback (response description : Str) :
    (¬ (containsSub englishMarker response = true
        ∧ containsSub arabicMarker response = true) →
      parse_creative_response response description
        = create_fallback_creative_description description) ∧
    ((containsSub englishMarker response = true
        ∧ containsSub arabicMarker response = true) →
      parse_creative_response response description
        = (pyStrip ((pySplitOn response arabicMarker).getD 1 []),
           pyStrip (removeAllSub ((pySplitOn response arabicMarker).headD [])
             englishMarker))) := by
  constructor
  · intro h
    unfold parse_creative_response
    rw [if_neg]
    simpa [Bool.and_eq_true] using h
  · intro h
    unfold parse_creative_response
    rw [if_pos]
    simpa [Bool.and_eq_true] using h

/-- Witness for C9 at a marker-free response and at a well-formed one. -/
theorem C9_missing_markers_fallback_witness :
    parse_creative_response (strOf "هلا بيك") (strOf "قط")
      = create_fallback_creative_description (strOf "قط") ∧
    parse_creative_response (strOf "ENGLISH_PROMPT: a cat\nARABIC_DESCRIPTION: قطة") (strOf "قط")
      = (pyStrip ((pySplitOn (strOf "ENGLISH_PROMPT: a cat\nARABIC_DESCRIPTION: قطة") arabicMarker).getD 1 []),
         pyStrip (removeAllSub ((pySplitOn (strOf "ENGLISH_PROMPT: a cat\nARABIC_DESCRIPTION: قطة") arabicMarker).headD [])
           englishMarker)) :=
  ⟨(C9_missing_markers_fallback (strOf "هلا بيك") (strOf "قط")).1 (by decide),
   (C9_missing_markers_fallback (strOf "ENGLISH_PROMPT: a cat\nARABIC_DESCRIPTION: قطة") (strOf "قط")).2 (by decide)⟩

/-! ### C2 -/

/-- C2: `generate_response` prefers the primary text; on an empty primary
result or a quota-type primary error it falls back to the secondary
provider and returns the secondary's text; when the secondary also fails it
returns one of the hardcoded localized fallback messages; it is a total
function whose value is always one of the displayable strings below, never
a propagated exception. -/
theorem C2_generate_response_fallback (primary : ProviderResult)
    (gemini : Option ProviderResult) (userMessage : Str) :
    (∀ e t, primary = ProviderResult.err e → quotaErrorIndicated e = true →
      gemini = some (ProviderResult.ok t) → t ≠ [] →
      generate_response primary gemini userMessage = pyStrip t) ∧
    (primary = ProviderResult.ok [] →
      generate_response primary gemini userMessage
        = fallback_to_gemini gemini userMessage) ∧
    (∀ e, primary = ProviderResult.err e → quotaErrorIndicated e = true →
      (gemini = none ∨ (∃ e2, gemini = some (ProviderResult.err e2))
        ∨ gemini = some (ProviderResult.ok [])) →
      generate_response primary gemini userMessage
        = hardcodedFallbackResponse userMessage) ∧
    (hardcodedFallbackResponse userMessage ∈
      [carsFallbackMessage, quizFallbackMessage, helpFallbackMessage,
       genericFallbackMessage]) ∧
    (generate_response primary gemini userMessage = processingErrorMessage
      ∨ (∃ t, primary = ProviderResult.ok t
          ∧ generate_response primary gemini userMessage = pyStrip t)
      ∨ (∃ t, gemini = some (ProviderResult.ok t)
          ∧ generate_response primary gemini userMessage = pyStrip t)
      ∨ generate_response primary gemini userMessage
          = hardcodedFallbackResponse userMessage) := by
  refine ⟨?_, ?_, ?_, ?_, ?_⟩
  · intro e t hp hq hg ht
    subst hp; subst hg
    simp [generate_response, fallback_to_gemini, hq, ht]
  · intro hp
    subst hp
    simp [generate_response]
  · intro e hp hq hg
    subst hp
    simp only [generate_response, hq, if_pos]
    rcases hg with h | ⟨e2, h⟩ | h <;> subst h <;> simp [fallback_to_gemini]
  · simp only [hardcodedFallbackResponse]
    split
    · simp
    · split
      · simp
      · split <;> simp
  · rcases primary with t | e
    · by_cases ht : t = []
      · subst ht
        rcases gemini with _ | g
        · right; right; right
          simp [generate_response, fallback_to_gemini]
        · rcases g with t2 | e2
          · by_cases ht2 : t2 = []
            · subst ht2; right; right; right
              simp [generate_response, fallback_to_gemini]
            · right; right; left
              exact ⟨t2, rfl, by simp [generate_response, fallback_to_gemini, ht2]⟩
          · right; right; right
            simp [generate_response, fallback_to_gemini]
      · right; left
        exact ⟨t, rfl, by simp [generate_response, ht]⟩
    · by_cases hq : quotaErrorIndicated e = true
      · rcases gemini with _ | g
        · right; right; right
          simp [generate_response, fallback_to_gemini, hq]
        · rcases g with t2 | e2
          · by_cases ht2 : t2 = []
            · subst ht2; right; right; right
              simp [generate_response, fallback_to_gemini, hq]
            · right; right; left
              exact ⟨t2, rfl, by simp [generate_response, fallback_to_gemini, hq, ht2]⟩
          · right; right; right
            simp [generate_response, fallback_to_gemini, hq]
      · left
        simp [generate_response, hq]

/-- Witness for C2: a quota-failing primary with a working secondary
returns the secondary text; with a failing secondary it returns the
keyword-free hardcoded fallback. -/
theorem C2_generate_response_fallback_witness :
    generate_response (ProviderResult.err (strOf "Error code: 402 - insufficient credits"))
      (some (ProviderResult.ok (strOf "هلا! شكو ماكو؟"))) (strOf "مرحبا")
      = pyStrip (strOf "هلا! شكو ماكو؟") ∧
    generate_response (ProviderResult.err (strOf "Error code: 402 - insufficient credits"))
      (some (ProviderResult.err (strOf "timeout"))) (strOf "مرحبا")
      = hardcodedFallbackResponse (strOf "مرحبا") ∧
    generate_response (ProviderResult.ok []) (some (ProviderResult.ok (strOf "زين")))
      (strOf "مرحبا")
      = fallback_to_gemini (some (ProviderResult.ok (strOf "زين"))) (strOf "مرحبا") :=
  ⟨(C2_generate_response_fallback _ _ _).1 _ _ rfl (by decide) rfl (by decide),
   (C2_generate_response_fallback _ (some (ProviderResult.err (strOf "timeout"))) _).2.2.1
     _ rfl (by decide) (Or.inr (Or.inl ⟨_, rfl⟩)),
   (C2_generate_response_fallback _ _ _).2.1 rfl⟩

/-! ### C7 -/

/-- The function `update_long_term_memory` changes the communication-style list exactly
as `styleAfter` does. -/
theorem update_ltm_style (mem : Option LongTermMemory) (m r : Str) (now : Nat) :
    (update_long_term_memory mem m r now).communication_style
      = styleAfter (mem.getD freshMemory).communication_style m := rfl

/-- The rating descriptor is not the short-messages descriptor. -/
theorem count_short_in_rating :
    List.count shortMessagesDescriptor [ratingDescriptor] = 0 := by decide

/-- The detailed descriptor is not the short-messages descriptor. -/
theorem count_short_in_detailed :
    List.count shortMessagesDescriptor [detailedDescriptor] = 0 := by decide

/-- The rating step never changes how often the short-messages descriptor
occurs. -/
theorem ratingStyleStep_short_count (style : List Str) (ul : Str) :
    (ratingStyleStep style ul).count shortMessagesDescriptor
      = style.count shortMessagesDescriptor := by
  unfold ratingStyleStep
  split
  · split
    · rw [List.count_append, count_short_in_rating]
      rfl
    · rfl
  · rfl

/-- A message of at most three words leaves exactly one copy of the
short-messages descriptor, provided there was at most one before. -/
theorem styleAfter_short_count (style : List Str) (m : Str)
    (hwc : wordCount m ≤ 3)
    (hle : style.count shortMessagesDescriptor ≤ 1) :
    (styleAfter style m).count shortMessagesDescriptor = 1 := by
  unfold styleAfter lengthStyleStep
  rw [if_pos hwc]
  have hcnt := ratingStyleStep_short_count style (lowerStr m)
  split
  · rename_i hnm
    rw [List.count_append, List.count_eq_zero.mpr hnm]
    decide
  · rename_i hnm
    have hmem : shortMessagesDescriptor ∈ ratingStyleStep style (lowerStr m) :=
      not_not.mp hnm
    have h1 : 0 < (ratingStyleStep style (lowerStr m)).count shortMessagesDescriptor :=
      List.count_pos_iff.mpr hmem
    omega

/-- An `if`-guarded single append extends the list. -/
theorem exists_append_if {P : Prop} [Decidable P] (l : List Str) (d : Str) :
    ∃ a, (if P then l ++ [d] else l) = l ++ a := by
  split
  · exact ⟨[d], rfl⟩
  · exact ⟨[], (List.append_nil l).symm⟩

/-- The rating step only appends. -/
theorem ratingStyleStep_append (style : List Str) (ul : Str) :
    ∃ a, ratingStyleStep style ul = style ++ a := by
  unfold ratingStyleStep
  split
  · exact exists_append_if style ratingDescriptor
  · exact ⟨[], (List.append_nil style).symm⟩

/-- The word-count step only appends. -/
theorem lengthStyleStep_append (style : List Str) (m : Str) :
    ∃ a, lengthStyleStep style m = style ++ a := by
  unfold lengthStyleStep
  split
  · exact exists_append_if style shortMessagesDescriptor
  · split
    · exact exists_append_if style detailedDescriptor
    · exact ⟨[], (List.append_nil style).symm⟩

/-- The whole style pipeline only appends. -/
theorem styleAfter_append (style : List Str) (m : Str) :
    ∃ added, styleAfter style m = style ++ added := by
  obtain ⟨a, ha⟩ := ratingStyleStep_append style (lowerStr m)
  obtain ⟨b, hb⟩ := lengthStyleStep_append (ratingStyleStep style (lowerStr m)) m
  exact ⟨a ++ b, by rw [styleAfter, hb, ha, List.append_assoc]⟩

/-- A sequence of `update_long_term_memory` calls on one user's record,
each `(userMessage, botResponse, now)`. -/
def runMemory (mem : Option LongTermMemory) (calls : List (Str × Str × Nat)) :
    Option LongTermMemory :=
  calls.foldl (fun m p => some (update_long_term_memory m p.1 p.2.1 p.2.2)) mem

/-- Once the short-messages descriptor occurs exactly once, further short
messages keep it at exactly one occurrence. -/
theorem runMemory_short_count (calls : List (Str × Str × Nat)) :
    ∀ mem : Option LongTermMemory,
      (∀ p ∈ calls, wordCount p.1 ≤ 3) →
      (mem.getD freshMemory).communication_style.count shortMessagesDescriptor = 1 →
      ((runMemory mem calls).getD freshMemory).communication_style.count
        shortMessagesDescriptor = 1 := by
  induction calls with
  | nil => intro mem _ h1; exact h1
  | cons p rest ih =>
    intro mem hall h1
    have hstep : (update_long_term_memory mem p.1 p.2.1 p.2.2).communication_style.count
        shortMessagesDescriptor = 1 := by
      rw [update_ltm_style]
      exact styleAfter_short_count _ _ (hall p (by simp)) (by omega)
    have : runMemory mem (p :: rest)
        = runMemory (some (update_long_term_memory mem p.1 p.2.1 p.2.2)) rest := rfl
    rw [this]
    exact ih _ (fun q hq => hall q (by simp [hq])) hstep

/-- C7: starting from no record, any non-empty sequence of messages of at
most three words leaves the short-messages descriptor in the
communication-style list exactly once; and every update only appends to
that list, so descriptors are never removed. -/
theorem C7_short_descriptor_idempotent :
    (∀ calls : List (Str × Str × Nat), calls ≠ [] →
      (∀ p ∈ calls, wordCount p.1 ≤ 3) →
      ((runMemory none calls).getD freshMemory).communication_style.count
        shortMessagesDescriptor = 1) ∧
    (∀ (mem : Option LongTermMemory) (m r : Str) (now : Nat),
      ∃ added, (update_long_term_memory mem m r now).communication_style
        = (mem.getD freshMemory).communication_style ++ added) := by
  constructor
  · intro calls hne hall
    match calls with
    | [] => exact absurd rfl hne
    | p :: rest =>
      have h1 : ((some (update_long_term_memory none p.1 p.2.1 p.2.2)).getD
          freshMemory).communication_style.count shortMessagesDescriptor = 1 := by
        simp only [Option.getD_some]
        rw [update_ltm_style]
        exact styleAfter_short_count _ _ (hall p (by simp)) (by decide)
      have hrw : runMemory none (p :: rest)
          = runMemory (some (update_long_term_memory none p.1 p.2.1 p.2.2)) rest := rfl
      rw [hrw]
      exact runMemory_short_count rest _ (fun q hq => hall q (by simp [hq])) h1
  · intro mem m r now
    rw [update_ltm_style]
    exact styleAfter_append _ m

/-- Witness for C7: two consecutive one-word messages leave one copy of the
descriptor; a concrete update only appends. -/
theorem C7_short_descriptor_idempotent_witness :
    ((runMemory none [(strOf "هلا", strOf "اهلا", 0), (strOf "هلا", strOf "اهلا", 1)]).getD
        freshMemory).communication_style.count shortMessagesDescriptor = 1 ∧
    (∃ added, (update_long_term_memory none (strOf "هلا") (strOf "اهلا") 0).communication_style
      = (Option.getD (none : Option LongTermMemory) freshMemory).communication_style ++ added) :=
  ⟨C7_short_descriptor_idempotent.1 _ (by decide) (by decide),
   C7_short_descriptor_idempotent.2 none (strOf "هلا") (strOf "اهلا") 0⟩

/-! ### C5 -/

/-- Collapsing backtick runs does not change the count of any other
character. -/
theorem count_collapseBTAux (ch : Char) (hch : ch ≠ backtick) :
    ∀ (s : Str) (b : Bool), (collapseBTAux s b).count ch = s.count ch := by
  intro s
  induction s with
  | nil => intro b; rfl
  | cons c rest ih =>
    intro b
    by_cases hc : c = backtick
    · subst hc
      have hne : (backtick == ch) = false := by
        simp only [beq_eq_false_iff_ne, ne_eq]
        exact fun h => hch h.symm
      cases b <;>
        simp [collapseBTAux, List.count_cons, hne, ih true, ih false]
    · have hcb : (c == backtick) = false := by
        simp only [beq_eq_false_iff_ne, ne_eq]
        exact hc
      simp [collapseBTAux, hcb, List.count_cons, ih false]

/-- Removing the first occurrence of `ch` lowers its count by one when it
occurs. -/
theorem count_removeFirstOcc_self (ch : Char) :
    ∀ s : Str, ch ∈ s → (removeFirstOcc ch s).count ch = s.count ch - 1 := by
  intro s
  induction s with
  | nil => intro h; cases h
  | cons c rest ih =>
    intro hmem
    by_cases hc : c = ch
    · subst hc
      simp [removeFirstOcc, List.count_cons]
    · have hcb : (c == ch) = false := by
        simp only [beq_eq_false_iff_ne, ne_eq]; exact hc
      have hrest : ch ∈ rest := by
        rcases List.mem_cons.mp hmem with h | h
        · exact absurd h.symm hc
        · exact h
      have hpos : 0 < rest.count ch := List.count_pos_iff.mpr hrest
      simp only [removeFirstOcc, hcb, if_neg (by simp [hcb] : ¬ (c == ch) = true)]
      simp [List.count_cons, hcb, ih hrest]

/-- Removing a first occurrence of `ch` leaves every other character count
unchanged. -/
theorem count_removeFirstOcc_other (ch ch' : Char) (h : ch' ≠ ch) :
    ∀ s : Str, (removeFirstOcc ch s).count ch' = s.count ch' := by
  intro s
  induction s with
  | nil => rfl
  | cons c rest ih =>
    by_cases hc : c = ch
    · have hcc : (ch == ch') = false := by
        simp only [beq_eq_false_iff_ne, ne_eq]
        exact fun hh => h hh.symm
      simp [removeFirstOcc, hc, List.count_cons, hcc]
    · have hcb : (c == ch) = false := by
        simp only [beq_eq_false_iff_ne, ne_eq]; exact hc
      simp [removeFirstOcc, hcb, List.count_cons, ih]

/-- Count of `ch` after `removeLastOcc` when `ch` occurs. -/
theorem count_removeLastOcc_self (ch : Char) (s : Str) (h : ch ∈ s) :
    (removeLastOcc ch s).count ch = s.count ch - 1 := by
  unfold removeLastOcc
  rw [List.count_reverse, count_removeFirstOcc_self ch s.reverse (by simpa using h),
    List.count_reverse]

/-- Applying `removeLastOcc` for one character preserves the others. -/
theorem count_removeLastOcc_other (ch ch' : Char) (h : ch' ≠ ch) (s : Str) :
    (removeLastOcc ch s).count ch' = s.count ch' := by
  unfold removeLastOcc
  rw [List.count_reverse, count_removeFirstOcc_other ch ch' h s.reverse,
    List.count_reverse]

/-- After the backtick repair the number of backticks is even. -/
theorem backtickRepair_even (t : Str) :
    (backtickRepair t).count backtick % 2 = 0 := by
  unfold backtickRepair
  split
  · rename_i hodd
    have hpos : 0 < (collapseBacktickRuns t).count backtick := by omega
    have hmem : backtick ∈ collapseBacktickRuns t := List.count_pos_iff.mp hpos
    rw [count_removeLastOcc_self backtick _ hmem]
    omega
  · rename_i heven
    omega

/-- The backtick repair does not change the count of any other
character. -/
theorem backtickRepair_count_other (ch : Char) (hch : ch ≠ backtick) (t : Str) :
    (backtickRepair t).count ch = t.count ch := by
  unfold backtickRepair
  split
  · rw [count_removeLastOcc_other backtick ch hch]
    exact count_collapseBTAux ch hch t false
  · exact count_collapseBTAux ch hch t false

/-- After `oddStrip ch` on a list with an odd count of `ch`, no `ch`
remains. -/
theorem oddStrip_self (ch : Char) (t : Str) (h : t.count ch % 2 = 1) :
    (oddStrip ch t).count ch = 0 := by
  unfold oddStrip
  rw [if_pos (by omega)]
  rw [List.count_eq_zero]
  intro hmem
  rcases List.mem_filter.mp hmem with ⟨_, hne⟩
  simp at hne

/-- The pass `oddStrip ch` never changes the count of a different character. -/
theorem oddStrip_other (ch ch' : Char) (h : ch' ≠ ch) (t : Str) :
    (oddStrip ch t).count ch' = t.count ch' := by
  unfold oddStrip
  split
  · exact List.count_filter (by simp [h])
  · rfl

/-- The broken-link truncation only removes characters. -/
theorem fixBrokenLink_sublist : ∀ t : Str, (fixBrokenLink t).Sublist t := by
  intro t
  induction t with
  | nil => exact List.Sublist.refl []
  | cons c rest ih =>
    by_cases hc : c = '['
    · subst hc
      simp only [fixBrokenLink, beq_self_eq_true, if_pos]
      cases hlab : linkLabelAt rest with
      | none => exact ih.cons₂ _
      | some label =>
        have hl : label = rest.takeWhile (fun x => x != ']') := by
          unfold linkLabelAt at hlab
          split at hlab
          · split at hlab
            · exact (Option.some_injective _ hlab).symm
            · cases hlab
          · cases hlab
        rw [hl]
        exact (List.takeWhile_sublist _).cons _
    · have hcb : (c == '[') = false := by
        simp only [beq_eq_false_iff_ne, ne_eq]; exact hc
      simp only [fixBrokenLink, hcb]
      exact ih.cons₂ _

/-- Stripping whitespace cannot increase a character count. -/
theorem count_pyStrip_le (ch : Char) (s : Str) :
    (pyStrip s).count ch ≤ s.count ch := by
  unfold pyStrip
  rw [List.count_reverse]
  calc ((s.dropWhile Char.isWhitespace).reverse.dropWhile Char.isWhitespace).count ch
      ≤ (s.dropWhile Char.isWhitespace).reverse.count ch :=
        (List.dropWhile_sublist _).count_le ch
    _ = (s.dropWhile Char.isWhitespace).count ch := List.count_reverse ch _
    _ ≤ s.count ch := (List.dropWhile_sublist _).count_le ch

/-- A list with an odd count of some character is not empty. -/
theorem ne_nil_of_count_odd (ch : Char) (t : Str) (h : t.count ch % 2 = 1) :
    t.isEmpty = false := by
  cases t with
  | nil => simp [List.count_nil] at h
  | cons c rest => rfl

/-- The function `takeWhile` walks through a block that satisfies the predicate. -/
theorem takeWhile_append_all {p : Char → Bool} :
    ∀ (l r : List Char), (∀ x ∈ l, p x = true) →
      (l ++ r).takeWhile p = l ++ r.takeWhile p := by
  intro l r
  induction l with
  | nil => intro _; rfl
  | cons c rest ih =>
    intro hall
    have hc : p c = true := hall c (by simp)
    simp only [List.cons_append, List.takeWhile_cons, hc, if_pos]
    rw [ih (fun x hx => hall x (by simp [hx]))]

/-- The function `dropWhile` walks through a block that satisfies the predicate. -/
theorem dropWhile_append_all {p : Char → Bool} :
    ∀ (l r : List Char), (∀ x ∈ l, p x = true) →
      (l ++ r).dropWhile p = r.dropWhile p := by
  intro l r
  induction l with
  | nil => intro _; rfl
  | cons c rest ih =>
    intro hall
    have hc : p c = true := hall c (by simp)
    simp only [List.cons_append, List.dropWhile_cons, hc, if_pos]
    exact ih (fun x hx => hall x (by simp [hx]))

/-- The regex helper recognises a well-formed trailing link body. -/
theorem linkLabelAt_of_shape (label junk : Str)
    (hlab : ']' ∉ label) (hjunk : ')' ∉ junk) :
    linkLabelAt (label ++ ']' :: '(' :: junk) = some label := by
  have hall : ∀ x ∈ label, (x != ']') = true := by
    intro x hx
    simp only [bne_iff_ne, ne_eq]
    exact fun hxe => hlab (hxe ▸ hx)
  have htw : (label ++ ']' :: '(' :: junk).takeWhile (fun c => c != ']') = label := by
    rw [takeWhile_append_all label (']' :: '(' :: junk) hall]
    simp [List.takeWhile_cons]
  have hdw : (label ++ ']' :: '(' :: junk).dropWhile (fun c => c != ']')
      = ']' :: '(' :: junk := by
    rw [dropWhile_append_all label (']' :: '(' :: junk) hall]
    simp [List.dropWhile_cons]
  have hjall : junk.all (fun c => c != ')') = true := by
    rw [List.all_eq_true]
    intro x hx
    simp only [bne_iff_ne, ne_eq]
    exact fun hxe => hjunk (hxe ▸ hx)
  simp only [linkLabelAt, htw, hdw, hjall, if_true]

/-- The truncation of a trailing unterminated link keeps the preceding text
and the display label. -/
theorem fixBrokenLink_trailing (p label junk : Str)
    (hp : '[' ∉ p) (hlab : ']' ∉ label) (hjunk : ')' ∉ junk) :
    fixBrokenLink (p ++ '[' :: (label ++ ']' :: '(' :: junk)) = p ++ label := by
  induction p with
  | nil =>
    simp only [List.nil_append, fixBrokenLink, beq_self_eq_true, if_pos]
    rw [linkLabelAt_of_shape label junk hlab hjunk]
  | cons c prest ih =>
    have hc : c ≠ '[' := fun h => hp (h ▸ List.mem_cons_self c prest)
    have hp' : '[' ∉ prest := fun hx => hp (List.mem_cons_of_mem c hx)
    have hstep : fixBrokenLink (c :: (prest ++ '[' :: (label ++ ']' :: '(' :: junk)))
        = c :: fixBrokenLink (prest ++ '[' :: (label ++ ']' :: '(' :: junk)) := by
      simp only [fixBrokenLink]
      rw [if_neg]
      simp [hc]
    rw [List.cons_append, hstep, ih hp', List.cons_append]

/-- C5 counterexample: this input has three backticks (odd), yet the
sanitized output still has an odd backtick count — the broken-link
truncation runs after the backtick repair and removes a backtick from the
truncated tail, so the claimed even-count repair fails for the inline-code
marker. -/
theorem C5_sanitizer_counterexample :
    (strOf "`[x](``").count backtick % 2 = 1 ∧
    cleanResponseText (strOf "`[x](``") = strOf "`x" ∧
    (cleanResponseText (strOf "`[x](``")).count backtick % 2 = 1 :=
  ⟨by decide, by decide, by decide⟩

/-- C5 (amended): an odd number of bold or italic markers is repaired by
stripping every instance (so the final output has none); the backtick
count is even after the marker-repair stage, though the later broken-link
truncation may remove backticks from the truncated tail and leave an odd
final count; a trailing unterminated link markup is removed by the
truncation pass with its display text preserved. -/
theorem C5_sanitizer_repairs :
    (∀ t : Str, t.count '*' % 2 = 1 → (cleanResponseText t).count '*' = 0) ∧
    (∀ t : Str, t.count '_' % 2 = 1 → (cleanResponseText t).count '_' = 0) ∧
    (∀ t : Str,
      (oddStrip '_' (oddStrip '*' (backtickRepair t))).count backtick % 2 = 0) ∧
    (∀ p label junk : Str, '[' ∉ p → ']' ∉ label → ')' ∉ junk →
      fixBrokenLink (p ++ '[' :: (label ++ ']' :: '(' :: junk)) = p ++ label) := by
  refine ⟨?_, ?_, ?_, fixBrokenLink_trailing⟩
  · intro t h
    have hne : t.isEmpty = false := ne_nil_of_count_odd '*' t h
    have h1 : (backtickRepair t).count '*' = t.count '*' :=
      backtickRepair_count_other '*' (by decide) t
    have h2 : (oddStrip '*' (backtickRepair t)).count '*' = 0 :=
      oddStrip_self '*' _ (by rw [h1]; exact h)
    have h3 : (oddStrip '_' (oddStrip '*' (backtickRepair t))).count '*' = 0 := by
      rw [oddStrip_other '_' '*' (by decide)]
      exact h2
    have h4 : (fixBrokenLink (oddStrip '_' (oddStrip '*' (backtickRepair t)))).count '*'
        = 0 := by
      have := (fixBrokenLink_sublist (oddStrip '_' (oddStrip '*' (backtickRepair t)))).count_le '*'
      omega
    have h5 := count_pyStrip_le '*'
      (fixBrokenLink (oddStrip '_' (oddStrip '*' (backtickRepair t))))
    simp only [cleanResponseText, hne, Bool.false_eq_true, if_false]
    omega
  · intro t h
    have hne : t.isEmpty = false := ne_nil_of_count_odd '_' t h
    have h1 : (backtickRepair t).count '_' = t.count '_' :=
      backtickRepair_count_other '_' (by decide) t
    have h2 : (oddStrip '*' (backtickRepair t)).count '_' = t.count '_' := by
      rw [oddStrip_other '*' '_' (by decide)]
      exact h1
    have h3 : (oddStrip '_' (oddStrip '*' (backtickRepair t))).count '_' = 0 :=
      oddStrip_self '_' _ (by rw [h2]; exact h)
    have h4 : (fixBrokenLink (oddStrip '_' (oddStrip '*' (backtickRepair t)))).count '_'
        = 0 := by
      have := (fixBrokenLink_sublist (oddStrip '_' (oddStrip '*' (backtickRepair t)))).count_le '_'
      omega
    have h5 := count_pyStrip_le '_'
      (fixBrokenLink (oddStrip '_' (oddStrip '*' (backtickRepair t))))
    simp only [cleanResponseText, hne, Bool.false_eq_true, if_false]
    omega
  · intro t
    have h1 := backtickRepair_even t
    have h2 : (oddStrip '*' (backtickRepair t)).count backtick
        = (backtickRepair t).count backtick :=
      oddStrip_other '*' backtick (by decide) _
    have h3 : (oddStrip '_' (oddStrip '*' (backtickRepair t))).count backtick
        = (oddStrip '*' (backtickRepair t)).count backtick :=
      oddStrip_other '_' backtick (by decide) _
    omega

/-- Witness for C5 (amended) at concrete inputs. -/
theorem C5_sanitizer_repairs_witness :
    (cleanResponseText (strOf "a*b")).count '*' = 0 ∧
    (cleanResponseText (strOf "a_b_c_d")).count '_' = 0 ∧
    (oddStrip '_' (oddStrip '*' (backtickRepair (strOf "`a")))).count backtick % 2 = 0 ∧
    fixBrokenLink (strOf "hello " ++ '[' :: (strOf "w" ++ ']' :: '(' :: strOf "u"))
      = strOf "hello " ++ strOf "w" :=
  ⟨C5_sanitizer_repairs.1 _ (by decide),
   C5_sanitizer_repairs.2.1 _ (by decide),
   C5_sanitizer_repairs.2.2.1 _,
   C5_sanitizer_repairs.2.2.2 _ _ _ (by decide) (by decide) (by decide)⟩

/-! ### C6 -/

/-- Full characterisation of the broadcast loop from an arbitrary tally:
for a duplicate-free target list, membership in the final users set and the
three counters are determined by each recipient's outcome against the
initial users set. -/
theorem broadcast_fold_spec (deliver : Int → SendOutcome) :
    ∀ (targets : List Int) (t : BroadcastTally), targets.Nodup →
      (∀ u : Int, u ∈ (targets.foldl (broadcastStep deliver) t).users ↔
        (u ∈ t.users ∧ ¬(u ∈ targets ∧ outcomeBlocked (deliver u) = true))) ∧
      (targets.foldl (broadcastStep deliver) t).sent
        = t.sent + (targets.filter (fun u => decide (u ∈ t.users)
            && decide (deliver u = SendOutcome.ok))).length ∧
      (targets.foldl (broadcastStep deliver) t).failed
        = t.failed + (targets.filter (fun u => decide (u ∈ t.users)
            && outcomeFailed (deliver u))).length ∧
      (targets.foldl (broadcastStep deliver) t).not_found
        = t.not_found + (targets.filter (fun u => decide (u ∉ t.users))).length := by
  intro targets
  induction targets with
  | nil =>
    intro t _
    refine ⟨fun u => by simp, by simp, by simp, by simp⟩
  | cons a l ih =>
    intro t hnd
    obtain ⟨hal, hln⟩ := List.nodup_cons.mp hnd
    have hfold : (a :: l).foldl (broadcastStep deliver) t
        = l.foldl (broadcastStep deliver) (broadcastStep deliver t a) := rfl
    by_cases hmem : a ∈ t.users
    · cases hdel : deliver a with
      | ok =>
        have ht' : broadcastStep deliver t a = { t with sent := t.sent + 1 } := by
          simp [broadcastStep, hmem, hdel]
        obtain ⟨ihm, ihs, ihf, ihn⟩ := ih { t with sent := t.sent + 1 } hln
        rw [hfold, ht']
        refine ⟨?_, ?_, ?_, ?_⟩
        · intro u
          rw [ihm u]
          by_cases hu : u = a
          · subst hu
            simp [hmem, List.mem_cons, outcomeBlocked, hdel]
          · simp [List.mem_cons, hu]
        · rw [ihs]
          simp only [List.filter_cons, hmem, hdel]
          simp
          omega
        · rw [ihf]
          simp only [List.filter_cons, hmem, hdel]
          simp [outcomeFailed]
        · rw [ihn]
          simp only [List.filter_cons, hmem]
          simp [hmem]
      | err e =>
        by_cases hbl : blockedSignal e = true
        · have ht' : broadcastStep deliver t a
              = { t with failed := t.failed + 1, users := t.users.erase a } := by
            simp [broadcastStep, hmem, hdel, hbl]
          obtain ⟨ihm, ihs, ihf, ihn⟩ :=
            ih { t with failed := t.failed + 1, users := t.users.erase a } hln
          rw [hfold, ht']
          have hfc : ∀ X : Int → Bool,
              l.filter (fun u => decide (u ∈ t.users.erase a) && X u)
                = l.filter (fun u => decide (u ∈ t.users) && X u) := by
            intro X
            apply List.filter_congr
            intro u hu
            have hune : u ≠ a := fun h => hal (h ▸ hu)
            congr 1
            rw [decide_eq_decide]
            exact ⟨fun h => (Finset.mem_erase.mp h).2,
              fun h => Finset.mem_erase.mpr ⟨hune, h⟩⟩
          have hfn : l.filter (fun u => decide (u ∉ t.users.erase a))
              = l.filter (fun u => decide (u ∉ t.users)) := by
            apply List.filter_congr
            intro u hu
            have hune : u ≠ a := fun h => hal (h ▸ hu)
            rw [decide_eq_decide]
            constructor
            · intro h hmem2
              exact h (Finset.mem_erase.mpr ⟨hune, hmem2⟩)
            · intro h hmem2
              exact h ((Finset.mem_erase.mp hmem2).2)
          refine ⟨?_, ?_, ?_, ?_⟩
          · intro u
            rw [ihm u]
            by_cases hu : u = a
            · subst hu
              simp [Finset.mem_erase, hmem, List.mem_cons, outcomeBlocked, hdel, hbl]
            · simp only [Finset.mem_erase, ne_eq, hu, not_false_eq_true, true_and,
                List.mem_cons, false_or]
          · rw [ihs]
            simp only [List.filter_cons, hmem, hdel]
            simp only [hfc]
            simp [hmem, hdel]
          · rw [ihf]
            simp only [List.filter_cons]
            simp only [hfc]
            simp [hmem, hdel, outcomeFailed]
            omega
          · rw [ihn]
            simp only [hfn]
            simp only [List.filter_cons]
            simp [hmem]
        · have ht' : broadcastStep deliver t a = { t with failed := t.failed + 1 } := by
            simp [broadcastStep, hmem, hdel, hbl]
          obtain ⟨ihm, ihs, ihf, ihn⟩ := ih { t with failed := t.failed + 1 } hln
          rw [hfold, ht']
          refine ⟨?_, ?_, ?_, ?_⟩
          · intro u
            rw [ihm u]
            by_cases hu : u = a
            · subst hu
              simp [hmem, List.mem_cons, outcomeBlocked, hdel, hbl]
            · simp [List.mem_cons, hu]
          · rw [ihs]
            simp only [List.filter_cons, hmem, hdel]
            simp
          · rw [ihf]
            simp only [List.filter_cons, hmem, hdel]
            simp [outcomeFailed]
            omega
          · rw [ihn]
            simp only [List.filter_cons]
            simp [hmem]
    · have ht' : broadcastStep deliver t a = { t with not_found := t.not_found + 1 } := by
        simp [broadcastStep, hmem]
      obtain ⟨ihm, ihs, ihf, ihn⟩ := ih { t with not_found := t.not_found + 1 } hln
      rw [hfold, ht']
      refine ⟨?_, ?_, ?_, ?_⟩
      · intro u
        rw [ihm u]
        by_cases hu : u = a
        · subst hu
          simp [hmem, List.mem_cons]
        · simp [List.mem_cons, hu]
      · rw [ihs]
        simp only [List.filter_cons]
        simp [hmem]
      · rw [ihf]
        simp only [List.filter_cons]
        simp [hmem]
      · rw [ihn]
        simp only [List.filter_cons]
        simp [hmem]
        omega

/-- C6: for a duplicate-free target list, exactly the registered targets
whose delivery error carries the blocked / not-found signal are removed
from the users set; every other id keeps its registration; and the
reported sent / failed / not-found counters match the per-recipient
outcomes exactly. -/
theorem C6_targeted_broadcast (deliver : Int → SendOutcome) (users : Finset Int)
    (targets : List Int) (hnd : targets.Nodup) :
    (∀ u : Int, u ∈ (send_targeted_broadcast deliver users targets).users ↔
      (u ∈ users ∧ ¬(u ∈ targets ∧ outcomeBlocked (deliver u) = true))) ∧
    (send_targeted_broadcast deliver users targets).sent
      = (targets.filter (fun u => decide (u ∈ users)
          && decide (deliver u = SendOutcome.ok))).length ∧
    (send_targeted_broadcast deliver users targets).failed
      = (targets.filter (fun u => decide (u ∈ users)
          && outcomeFailed (deliver u))).length ∧
    (send_targeted_broadcast deliver users targets).not_found
      = (targets.filter (fun u => decide (u ∉ users))).length := by
  obtain ⟨hm, hs, hf, hn⟩ :=
    broadcast_fold_spec deliver targets ⟨users, 0, 0, 0⟩ hnd
  exact ⟨hm, by simpa using hs, by simpa using hf, by simpa using hn⟩

/-- Example known-users set for the broadcast witness. -/
def usersBroadcastEx : Finset Int := {1, 2, 3}

/-- Example delivery outcomes: user 2 blocked the bot, everyone else
receives the message. -/
def deliverEx : Int → SendOutcome := fun u =>
  if u = 2 then SendOutcome.err (strOf "Forbidden: bot was blocked by the user")
  else SendOutcome.ok

/-- Witness for C6: broadcasting to `[1, 2, 9]` sends one message, fails
once, skips the unregistered id 9, removes exactly the blocked id 2 and
keeps ids 1 and 3. -/
theorem C6_targeted_broadcast_witness :
    (send_targeted_broadcast deliverEx usersBroadcastEx [1, 2, 9]).sent = 1 ∧
    (send_targeted_broadcast deliverEx usersBroadcastEx [1, 2, 9]).failed = 1 ∧
    (send_targeted_broadcast deliverEx usersBroadcastEx [1, 2, 9]).not_found = 1 ∧
    ¬ (2 : Int) ∈ (send_targeted_broadcast deliverEx usersBroadcastEx [1, 2, 9]).users ∧
    (1 : Int) ∈ (send_targeted_broadcast deliverEx usersBroadcastEx [1, 2, 9]).users ∧
    (3 : Int) ∈ (send_targeted_broadcast deliverEx usersBroadcastEx [1, 2, 9]).users := by
  have h := C6_targeted_broadcast deliverEx usersBroadcastEx [1, 2, 9] (by decide)
  refine ⟨?_, ?_, ?_, ?_, ?_, ?_⟩
  · rw [h.2.1]; decide
  · rw [h.2.2.1]; decide
  · rw [h.2.2.2]; decide
  · rw [h.1 2]; decide
  · rw [h.1 1]; decide
  · rw [h.1 3]; decide

